import Mathlib

/-!
Shallow embedding of the `paperless-media` plugin (files `signals.py` and
`parsers.py`) and proofs about its behaviour.

Python strings are modelled as `List Char`; file contents as `List Nat`
(byte values).  Python's `dict` (insertion ordered, unique keys) is
modelled as an association list `List (Str × Str)`; the key-uniqueness that
a `dict` guarantees appears as a `Nodup` hypothesis where it matters.
The built-in table `PPM_MIME_TYPES` is defined in `mime_types.py`, which is
not part of the sources under study; all statements are therefore
parametric in that table.
-/

namespace PaperlessMedia

/-- Python strings, modelled character by character. -/
abbrev Str := List Char

/-- ASCII fragment of the whitespace set used by Python's `str.strip()`:
space, tab, newline, vertical tab, form feed, carriage return. -/
def pyIsSpace (c : Char) : Bool :=
  decide (c.toNat = 32 ∨ c.toNat = 9 ∨ c.toNat = 10 ∨ c.toNat = 11 ∨
          c.toNat = 12 ∨ c.toNat = 13)

/-- Python `str.strip()` (ASCII-whitespace fragment): drop whitespace from
both ends. -/
def pyStrip (s : Str) : Str :=
  ((s.dropWhile pyIsSpace).reverse.dropWhile pyIsSpace).reverse

/-- Python `str.lower()` (ASCII fragment), character-wise. -/
def pyLower (s : Str) : Str := s.map Char.toLower

/-- Python `s.startswith(pre)`. -/
def strStartsWith (s pre : Str) : Bool := pre.isPrefixOf s

/-- Python `s.split(sep, 1)` restricted to the case where `sep` occurs in
`s` (the only case the source uses, guarded by `':' in line`): the parts
before and after the first occurrence of `sep`. -/
def splitFirst (sep : Char) : Str → Str × Str
  | [] => ([], [])
  | c :: rest =>
    if c = sep then ([], rest)
    else
      let p := splitFirst sep rest
      (c :: p.1, p.2)

/-- Model of `os.path.splitext` (posixpath): split off the extension at the last
dot of the basename, unless every character of the basename before that
dot is itself a dot. -/
def splitext (p : Str) : Str × Str :=
  let baseLen := (p.reverse.takeWhile (fun c => ¬ c = '/')).length
  let dir := p.take (p.length - baseLen)
  let base := p.drop (p.length - baseLen)
  let lead := (base.takeWhile (fun c => c = '.')).length
  let rest := base.drop lead
  if '.' ∈ rest then
    let r := rest.reverse
    let i := r.findIdx (fun c => c = '.')
    (dir ++ base.take lead ++ (r.drop (i + 1)).reverse, (r.take (i + 1)).reverse)
  else
    (p, [])

example : splitext ("file.foo".data) = ("file".data, ".foo".data) := by decide
example : splitext ("archive.tar.gz".data) = ("archive.tar".data, ".gz".data) := by decide
example : splitext (".bashrc".data) = (".bashrc".data, []) := by decide
example : splitext ("noext".data) = ("noext".data, []) := by decide
example : splitext ("dir.v2/plain".data) = ("dir.v2/plain".data, []) := by decide
example : pyStrip ("  a b\t".data) = "a b".data := by decide
example : pyLower (".MP4".data) = ".mp4".data := by decide
example : splitFirst ':' ("a:b:c".data) = ("a".data, "b:c".data) := by decide

/-! ## signals.py -/

/-- One iteration of the line-processing loop of
`_get_combined_mime_types` (signals.py lines 75-89): strip the line; skip
it when it is empty, has no colon, or is a comment; otherwise split at the
first colon, strip both parts, and if both are non-empty, dot-prefix the
extension when needed and append the pair — but only when the mime-type
key is not already present. -/
def processLine (acc : List (Str × Str)) (line : Str) : List (Str × Str) :=
  let l := pyStrip line
  if l = [] ∨ ':' ∉ l ∨ strStartsWith l ['#'] = true then acc
  else
    let m := pyStrip (splitFirst ':' l).1
    let e1 := pyStrip (splitFirst ':' l).2
    if m ≠ [] ∧ e1 ≠ [] then
      let e := if strStartsWith e1 ['.'] = true then e1 else '.' :: e1
      if (acc.find? (fun p => p.1 == m)).isSome then acc else acc ++ [(m, e)]
    else acc

/-- The function `_get_combined_mime_types` (signals.py lines 63-97): start from a copy
of the built-in `PPM_MIME_TYPES` dict and merge in the lines of
`generated.mime-types`; `none` models the side file being absent, in which
case only a warning is logged and the built-in table is returned. -/
def getCombinedMimeTypes (builtin : List (Str × Str))
    (sideFile : Option (List Str)) : List (Str × Str) :=
  match sideFile with
  | none => builtin
  | some lines => lines.foldl processLine builtin

/-- The two fields of the host's `Document` model that the pre-save
handler reads and writes. -/
structure Document where
  original_filename : Str
  mime_type : Str
deriving DecidableEq, Repr

/-- The fixed office-document exclusion list (signals.py line 142). -/
def exclude_extensions : List Str :=
  [".docx".data, ".doc".data, ".odt".data, ".ppt".data, ".pptx".data,
   ".odp".data, ".xls".data, ".xlsx".data, ".ods".data]

/-- Lines 120-121 of signals.py: the lowercased `os.path.splitext`
extension of the record's original filename. -/
def extOf (inst : Document) : Str :=
  pyLower (splitext inst.original_filename).2

/-- Line 149 of signals.py, `extension[1:] if extension.startswith('.') else extension`
(signals.py line 149). -/
def extensionWithoutDot (e : Str) : Str :=
  if strStartsWith e ['.'] = true then e.drop 1 else e

/-- The synthesized mime type `f"{current_mime}-{extension_without_dot}"`
(signals.py line 150). -/
def customMime (inst : Document) : Str :=
  inst.mime_type ++ '-' :: extensionWithoutDot (extOf inst)

/-- The line `f"{custom_mime}: {extension}"` appended to
`generated.mime-types` (signals.py line 158), without its trailing
newline. -/
def generatedLine (inst : Document) : Str :=
  customMime inst ++ ':' :: ' ' :: extOf inst

/-- Result of one run of the pre-save handler: the (possibly rewritten)
document record and the new contents of `generated.mime-types`. -/
structure SaveResult where
  doc : Document
  sideLines : List Str
deriving DecidableEq, Repr

/-- The pre-save handler `correct_mime_type_receiver` (signals.py lines 118-164).  `builtin` is
the `PPM_MIME_TYPES` table, `sideLines` the current contents of
`generated.mime-types`, and `writeOk` models whether the `open`/`write` of
the append succeeds (its exception is caught and only logged; the
assignment `instance.mime_type = custom_mime` on line 164 sits after the
`try`/`except` and runs either way). -/
def correct_mime_type_receiver (builtin : List (Str × Str)) (writeOk : Bool)
    (sideLines : List Str) (inst : Document) : SaveResult :=
  match (getCombinedMimeTypes builtin (some sideLines)).find?
      (fun p => extOf inst == p.2) with
  | some (mime, _) => ⟨{ inst with mime_type := mime }, sideLines⟩
  | none =>
    if strStartsWith inst.mime_type ("text/".data) = false ∧
       strStartsWith inst.mime_type ("image/".data) = false ∧
       extOf inst ∉ exclude_extensions ∧ extOf inst ≠ [] then
      ⟨{ inst with mime_type := customMime inst },
       if writeOk then sideLines ++ [generatedLine inst] else sideLines⟩
    else ⟨inst, sideLines⟩

example :
    getCombinedMimeTypes [("video/mp4".data, ".mp4".data)]
      (some ["application/x-afdesign: .afdesign".data, "  ".data, "# c".data]) =
    [("video/mp4".data, ".mp4".data), ("application/x-afdesign".data, ".afdesign".data)] := by
  decide

example :
    (correct_mime_type_receiver [("video/mp4".data, ".mp4".data)] true []
      ⟨"movie.MP4".data, "application/octet-stream".data⟩).doc.mime_type =
      "video/mp4".data := by decide

example :
    correct_mime_type_receiver [("video/mp4".data, ".mp4".data)] true []
      ⟨"design.afdesign".data, "application/octet-stream".data⟩ =
    ⟨⟨"design.afdesign".data, "application/octet-stream-afdesign".data⟩,
     ["application/octet-stream-afdesign: .afdesign".data]⟩ := by decide

/-! ## parsers.py -/

/-- A UTF-8 continuation byte. -/
def isCont (b : Nat) : Bool := decide (128 ≤ b ∧ b ≤ 191)

/-- Admissible second byte of a three-byte UTF-8 sequence with lead byte
`b1` (excluding overlong encodings and surrogates, as CPython does). -/
def utf8Second3 (b1 b2 : Nat) : Bool :=
  if b1 = 224 then decide (160 ≤ b2 ∧ b2 ≤ 191)
  else if b1 = 237 then decide (128 ≤ b2 ∧ b2 ≤ 159)
  else isCont b2

/-- Admissible second byte of a four-byte UTF-8 sequence with lead byte
`b1` (excluding overlong encodings and code points beyond U+10FFFF). -/
def utf8Second4 (b1 b2 : Nat) : Bool :=
  if b1 = 240 then decide (144 ≤ b2 ∧ b2 ≤ 191)
  else if b1 = 244 then decide (128 ≤ b2 ∧ b2 ≤ 143)
  else isCont b2

/-- Fuel-indexed worker for `decodeUtf8Ignore`.  Each step consumes at
least one byte and one unit of fuel, so `fuel = length` suffices; the fuel
only makes the recursion structural. -/
def decodeUtf8Aux : Nat → List Nat → List Char
  | 0, _ => []
  | _ + 1, [] => []
  | fuel + 1, b1 :: t1 =>
    if b1 ≤ 127 then Char.ofNat b1 :: decodeUtf8Aux fuel t1
    else if b1 < 194 then decodeUtf8Aux fuel t1
    else if b1 ≤ 223 then
      match t1 with
      | [] => []
      | b2 :: t2 =>
        if isCont b2 then
          Char.ofNat ((b1 - 192) * 64 + (b2 - 128)) :: decodeUtf8Aux fuel t2
        else decodeUtf8Aux fuel t1
    else if b1 ≤ 239 then
      match t1 with
      | [] => []
      | b2 :: t2 =>
        if utf8Second3 b1 b2 then
          match t2 with
          | [] => []
          | b3 :: t3 =>
            if isCont b3 then
              Char.ofNat ((b1 - 224) * 4096 + (b2 - 128) * 64 + (b3 - 128)) ::
                decodeUtf8Aux fuel t3
            else decodeUtf8Aux fuel t2
        else decodeUtf8Aux fuel t1
    else if b1 ≤ 244 then
      match t1 with
      | [] => []
      | b2 :: t2 =>
        if utf8Second4 b1 b2 then
          match t2 with
          | [] => []
          | b3 :: t3 =>
            if isCont b3 then
              match t3 with
              | [] => []
              | b4 :: t4 =>
                if isCont b4 then
                  Char.ofNat ((b1 - 240) * 262144 + (b2 - 128) * 4096 +
                      (b3 - 128) * 64 + (b4 - 128)) :: decodeUtf8Aux fuel t4
                else decodeUtf8Aux fuel t3
            else decodeUtf8Aux fuel t2
        else decodeUtf8Aux fuel t1
    else decodeUtf8Aux fuel t1

/-- Model of `raw_data.decode("utf-8", errors="ignore")` (parsers.py line 136):
decode UTF-8, dropping the bytes of each ill-formed subsequence and of a
truncated sequence at the end of the data. -/
def decodeUtf8Ignore (l : List Nat) : List Char := decodeUtf8Aux l.length l

example : decodeUtf8Ignore [104, 105] = "hi".data := by decide
example : decodeUtf8Ignore [195, 169] = ['é'] := by decide
example : decodeUtf8Ignore [104, 255, 105] = "hi".data := by decide
example : decodeUtf8Ignore [104, 195] = "h".data := by decide

/-- ASCII fragment of Python's `str.isprintable()`. -/
def pyIsPrintable (c : Char) : Bool := decide (32 ≤ c.toNat ∧ c.toNat ≤ 126)

/-- ASCII fragment of the regex word character `\w`:
letters, digits, underscore. -/
def isWordChar (c : Char) : Bool :=
  decide ((65 ≤ c.toNat ∧ c.toNat ≤ 90) ∨ (97 ≤ c.toNat ∧ c.toNat ≤ 122) ∨
          (48 ≤ c.toNat ∧ c.toNat ≤ 57) ∨ c.toNat = 95)

/-- Fuel-indexed worker for `countWords`; the fuel only makes the
recursion structural (`dropWhile` never lengthens the list). -/
def countWordsAux : Nat → Str → Nat
  | 0, _ => 0
  | _ + 1, [] => 0
  | fuel + 1, c :: rest =>
    if isWordChar c then 1 + countWordsAux fuel (rest.dropWhile isWordChar)
    else countWordsAux fuel rest

/-- Model of `len(re.findall(r'\b\w+\b', text))` (parsers.py line 122): the number
of maximal runs of word characters. -/
def countWords (s : Str) : Nat := countWordsAux s.length s

example : countWords ("one two,three!four_4 .".data) = 4 := by decide

/-- The helper `is_meaningful_text` (parsers.py lines 117-123): drop non-printable
characters, then require at least 5 word-like tokens. -/
def is_meaningful_text (text : Str) : Bool :=
  decide (5 ≤ countWords (text.filter pyIsPrintable))

/-- The character class kept by the substitution on parsers.py line 142,
`re.sub(r"[^A-Za-z0-9!@#$%^&*()_+\-=\[\]{}\\|;:'\",<.>/?`~\\s]", "", _)`.
In that raw string the final element is a literal backslash followed by a
literal `s` — not the class `\s` — so no whitespace is kept; the listed
characters are exactly the ASCII letters, digits and all ASCII punctuation,
i.e. the code points 33-126. -/
def sanitizeAllowed (c : Char) : Bool :=
  decide ((65 ≤ c.toNat ∧ c.toNat ≤ 90) ∨ (97 ≤ c.toNat ∧ c.toNat ≤ 122) ∨
          (48 ≤ c.toNat ∧ c.toNat ≤ 57) ∨ (33 ≤ c.toNat ∧ c.toNat ≤ 47) ∨
          (58 ≤ c.toNat ∧ c.toNat ≤ 64) ∨ (91 ≤ c.toNat ∧ c.toNat ≤ 96) ∨
          (123 ≤ c.toNat ∧ c.toNat ≤ 126))

/-- Lines 132-142 of parsers.py: read at most the first 5000 bytes,
decode as UTF-8 ignoring errors, remove null characters, then remove every
character outside the whitelisted class. -/
def readSanitized (bytes : List Nat) : Str :=
  ((decodeUtf8Ignore (bytes.take 5000)).filter
    (fun c => ¬ c = Char.ofNat 0)).filter sanitizeAllowed

/-- The method `MediaDocumentParser.parse` (parsers.py lines 114-157), returning the
extracted text `self.text`.  `fileRead` models `open(document_path,
"rb")`/`read`: `Except.error ()` is a raised I/O exception, which the
surrounding `try`/`except` catches, logging it and setting empty text. -/
def parse (mime_type : Str) (fileRead : Except Unit (List Nat)) : Str :=
  if strStartsWith mime_type ("audio/".data) = true ∨
     strStartsWith mime_type ("video/".data) = true ∨
     mime_type = "application/octet-stream".data then []
  else
    match fileRead with
    | Except.error _ => []
    | Except.ok raw_data =>
      if strStartsWith mime_type ("text/".data) = true then
        readSanitized raw_data
      else if is_meaningful_text (readSanitized raw_data) then
        readSanitized raw_data
      else []

example : parse ("audio/mpeg".data) (Except.ok [104, 105]) = [] := by decide
example :
    parse ("text/plain".data) (Except.ok [104, 0, 105, 32, 10, 33]) = "hi!".data := by
  decide
example :
    parse ("application/pdf".data)
      (Except.ok ("one two three four five".data.map Char.toNat)) = [] := by decide
example :
    parse ("application/pdf".data)
      (Except.ok ("one,two,three,four,five".data.map Char.toNat)) =
      "one,two,three,four,five".data := by decide

/-! ## Helper lemmas -/

theorem head_of_startsWith (c : Char) (pre s : Str)
    (h : strStartsWith s (c :: pre) = true) : s.head? = some c := by
  cases s with
  | nil => simp [strStartsWith, List.isPrefixOf] at h
  | cons d t =>
    simp only [strStartsWith, List.isPrefixOf, Bool.and_eq_true, beq_iff_eq] at h
    rw [List.head?_cons, h.1]

theorem sanitizeAllowed_printable (c : Char) (h : sanitizeAllowed c = true) :
    pyIsPrintable c = true := by
  simp only [sanitizeAllowed, decide_eq_true_eq] at h
  simp only [pyIsPrintable, decide_eq_true_eq]
  omega

theorem filter_printable_readSanitized (bytes : List Nat) :
    (readSanitized bytes).filter pyIsPrintable = readSanitized bytes := by
  apply List.filter_eq_self.mpr
  intro a ha
  exact sanitizeAllowed_printable a (List.of_mem_filter ha)

/-! ## Claims about parse -/

/-- C3: for every file-read outcome and every mime type starting with
`audio/` or `video/` or equal to `application/octet-stream`, `parse` sets
the extracted text to the empty string; the result does not depend on the
file at all (the early return precedes the `open`). -/
theorem parse_skips_audio_video_octet (mime : Str) (fileRead : Except Unit (List Nat))
    (h : strStartsWith mime ("audio/".data) = true ∨
         strStartsWith mime ("video/".data) = true ∨
         mime = "application/octet-stream".data) :
    parse mime fileRead = [] := by
  unfold parse
  rw [if_pos h]

theorem parse_skips_audio_video_octet_witness :
    parse ("video/mp4".data) (Except.error ()) = [] :=
  parse_skips_audio_video_octet ("video/mp4".data) (Except.error ())
    (Or.inr (Or.inl (by decide)))

/-- C7: a failing file read (the only fallible step of `parse`; decoding
with `errors="ignore"` cannot fail) is caught by the surrounding
`try`/`except` and degrades to empty extracted text, for every mime
type. -/
theorem parse_read_error_empty (mime : Str) :
    parse mime (Except.error ()) = [] := by
  unfold parse
  split
  · rfl
  · rfl

/-- C4 counterexample: for the text `hello world` under mime type
`text/plain`, `parse` removes the space — the character class of the
sanitizing regex does not contain whitespace (its `\\s` is a literal
backslash and a literal `s`), so the claimed output `hello world` is not
produced. -/
theorem parse_text_whitespace_counterexample :
    parse ("text/plain".data)
        (Except.ok [104, 101, 108, 108, 111, 32, 119, 111, 114, 108, 100]) =
      "helloworld".data ∧
    "helloworld".data ≠ "hello world".data := by decide

/-- C4 (amended): for every mime type starting with `text/`, `parse` sets
the extracted text to the full sanitized content — the first at-most-5000
bytes, decoded as UTF-8 ignoring invalid sequences, with null characters
removed and every character outside the whitelist (ASCII letters, digits
and punctuation, NOT including whitespace) removed — with no
minimum-word-count condition applied. -/
theorem parse_text_full_sanitized (mime : Str) (bytes : List Nat)
    (h : strStartsWith mime ("text/".data) = true) :
    parse mime (Except.ok bytes) =
      ((decodeUtf8Ignore (bytes.take 5000)).filter
        (fun c => ¬ c = Char.ofNat 0)).filter sanitizeAllowed := by
  have hhead : mime.head? = some 't' := head_of_startsWith 't' ("ext/".data) mime h
  have hskip : ¬(strStartsWith mime ("audio/".data) = true ∨
      strStartsWith mime ("video/".data) = true ∨
      mime = "application/octet-stream".data) := by
    intro hor
    rcases hor with ha | hv | ho
    · have h2 : mime.head? = some 'a' := head_of_startsWith 'a' ("udio/".data) mime ha
      rw [hhead] at h2
      exact absurd h2 (by decide)
    · have h2 : mime.head? = some 'v' := head_of_startsWith 'v' ("ideo/".data) mime hv
      rw [hhead] at h2
      exact absurd h2 (by decide)
    · rw [ho] at hhead
      exact absurd hhead (by decide)
  unfold parse
  rw [if_neg hskip]
  show (if strStartsWith mime ("text/".data) = true then readSanitized bytes
        else if is_meaningful_text (readSanitized bytes) = true then readSanitized bytes
        else []) = _
  rw [if_pos h]
  rfl

theorem parse_text_full_sanitized_witness :
    strStartsWith ("text/plain".data) ("text/".data) = true ∧
    parse ("text/plain".data) (Except.ok [104, 0, 105, 32, 33]) =
      ((decodeUtf8Ignore ([104, 0, 105, 32, 33].take 5000)).filter
        (fun c => ¬ c = Char.ofNat 0)).filter sanitizeAllowed :=
  ⟨by decide, parse_text_full_sanitized ("text/plain".data) [104, 0, 105, 32, 33] (by decide)⟩

/-- C5: for every mime type outside `text/`, `audio/`, `video/` and
`application/octet-stream`, `parse` keeps the sanitized content exactly
when it contains at least 5 word-like tokens, and yields the empty string
otherwise. -/
theorem parse_nontext_word_threshold (mime : Str) (bytes : List Nat)
    (ht : strStartsWith mime ("text/".data) = false)
    (ha : strStartsWith mime ("audio/".data) = false)
    (hv : strStartsWith mime ("video/".data) = false)
    (ho : mime ≠ "application/octet-stream".data) :
    parse mime (Except.ok bytes) =
      if 5 ≤ countWords (readSanitized bytes) then readSanitized bytes else [] := by
  have hskip : ¬(strStartsWith mime ("audio/".data) = true ∨
      strStartsWith mime ("video/".data) = true ∨
      mime = "application/octet-stream".data) := by
    simp [ha, hv, ho]
  unfold parse
  rw [if_neg hskip]
  show (if strStartsWith mime ("text/".data) = true then readSanitized bytes
        else if is_meaningful_text (readSanitized bytes) = true then readSanitized bytes
        else []) = _
  rw [ht]
  rw [if_neg (by simp)]
  unfold is_meaningful_text
  rw [filter_printable_readSanitized]
  by_cases h5 : 5 ≤ countWords (readSanitized bytes)
  · rw [if_pos (by simpa using h5), if_pos h5]
  · rw [if_neg (by simpa using h5), if_neg h5]

theorem parse_nontext_word_threshold_witness :
    parse ("application/pdf".data)
        (Except.ok ("one,two,three,four,five".data.map Char.toNat)) =
      (if 5 ≤ countWords (readSanitized ("one,two,three,four,five".data.map Char.toNat))
       then readSanitized ("one,two,three,four,five".data.map Char.toNat) else []) :=
  parse_nontext_word_threshold ("application/pdf".data)
    ("one,two,three,four,five".data.map Char.toNat)
    (by decide) (by decide) (by decide) (by decide)

/-! ## Helper lemmas about the combined table -/

theorem processLine_cases (acc : List (Str × Str)) (line : Str) :
    processLine acc line = acc ∨
    ∃ m e, processLine acc line = acc ++ [(m, e)] ∧
      (acc.find? (fun p => p.1 == m)).isSome = false := by
  simp only [processLine]
  split
  · exact Or.inl rfl
  · split
    · split
      · exact Or.inl rfl
      · rename_i hguard
        exact Or.inr ⟨_, _, rfl, Bool.eq_false_iff.mpr hguard⟩
    · exact Or.inl rfl

theorem combined_extends (builtin : List (Str × Str)) (lines : List Str) :
    ∃ gen, getCombinedMimeTypes builtin (some lines) = builtin ++ gen := by
  simp only [getCombinedMimeTypes]
  induction lines generalizing builtin with
  | nil => exact ⟨[], (List.append_nil builtin).symm⟩
  | cons l ls ih =>
    rw [List.foldl_cons]
    rcases processLine_cases builtin l with hc | ⟨m, e, hc, _⟩
    · rw [hc]; exact ih builtin
    · rw [hc]
      obtain ⟨t2, h2⟩ := ih (builtin ++ [(m, e)])
      exact ⟨[(m, e)] ++ t2, by rw [h2, List.append_assoc]⟩

theorem key_not_mem_of_find?_eq_false (acc : List (Str × Str)) (m : Str)
    (h : (acc.find? (fun p => p.1 == m)).isSome = false) :
    m ∉ acc.map Prod.fst := by
  intro hm
  obtain ⟨p, hp, hp1⟩ := List.mem_map.mp hm
  rw [List.find?_isSome.mpr ⟨p, hp, by simp [hp1]⟩] at h
  cases h

theorem foldl_keys_nodup (lines : List Str) (acc : List (Str × Str))
    (h : (acc.map Prod.fst).Nodup) :
    ((lines.foldl processLine acc).map Prod.fst).Nodup := by
  induction lines generalizing acc with
  | nil => exact h
  | cons l ls ih =>
    rw [List.foldl_cons]
    apply ih
    rcases processLine_cases acc l with hc | ⟨m, e, hc, hf⟩
    · rw [hc]; exact h
    · rw [hc, List.map_append, List.nodup_append]
      refine ⟨h, List.nodup_singleton m, ?_⟩
      intro x hx hx2
      have hxm : x = m := by simpa using hx2
      rw [hxm] at hx
      exact key_not_mem_of_find?_eq_false acc m hf hx

theorem find?_key_of_mem (l : List (Str × Str)) (m e : Str)
    (hnd : (l.map Prod.fst).Nodup) (hm : (m, e) ∈ l) :
    l.find? (fun p => p.1 == m) = some (m, e) := by
  induction l with
  | nil => cases hm
  | cons x xs ih =>
    rw [List.map_cons, List.nodup_cons] at hnd
    by_cases hx : x.1 = m
    · have hxe : x = (m, e) := by
        rcases List.mem_cons.mp hm with h1 | h1
        · exact h1.symm
        · exact absurd (List.mem_map.mpr ⟨(m, e), h1, rfl⟩) (hx ▸ hnd.1)
      rw [List.find?_cons_of_pos _ (by simp [hx]), hxe]
    · rw [List.find?_cons_of_neg _ (by simp [hx])]
      apply ih hnd.2
      rcases List.mem_cons.mp hm with h1 | h1
      · exact absurd (by rw [← h1]) hx
      · exact h1

/-! ## Claims about the pre-save handler -/

/-- C1: when the record's lowercased extension matches the extension of at
least one entry of the combined table — stated here through `find?`, whose
result is by definition the first matching entry in table iteration
order — the handler sets the record's mime type to that entry's mime type;
and the combined table begins with all built-in entries (the generated
entries only ever follow them). -/
theorem correct_mime_type_first_match (builtin : List (Str × Str)) (writeOk : Bool)
    (sideLines : List Str) (inst : Document) (m e : Str)
    (h : (getCombinedMimeTypes builtin (some sideLines)).find?
        (fun p => extOf inst == p.2) = some (m, e)) :
    (correct_mime_type_receiver builtin writeOk sideLines inst).doc.mime_type = m ∧
    (getCombinedMimeTypes builtin (some sideLines)).take builtin.length = builtin := by
  constructor
  · simp [correct_mime_type_receiver, h]
  · obtain ⟨gen, hg⟩ := combined_extends builtin sideLines
    rw [hg]
    exact List.take_left builtin gen

theorem correct_mime_type_first_match_witness :
    (correct_mime_type_receiver [("video/mp4".data, ".mp4".data)] true []
        ⟨"movie.MP4".data, "application/octet-stream".data⟩).doc.mime_type =
      "video/mp4".data ∧
    (getCombinedMimeTypes [("video/mp4".data, ".mp4".data)] (some [])).take
        [("video/mp4".data, ".mp4".data)].length =
      [("video/mp4".data, ".mp4".data)] :=
  correct_mime_type_first_match [("video/mp4".data, ".mp4".data)] true []
    ⟨"movie.MP4".data, "application/octet-stream".data⟩
    ("video/mp4".data) (".mp4".data) (by decide)

/-- C2: when no table entry matches, the current mime type is neither a
`text/` nor an `image/` type, and the extension is non-empty and not in
the office-document exclusion list, the handler sets the record's mime
type to the synthetic value (the current mime type with `-` and the
dotless extension appended) and, the write succeeding, appends the line
`custom_mime: extension` to the side file. -/
theorem correct_mime_type_synthesizes (builtin : List (Str × Str))
    (sideLines : List Str) (inst : Document)
    (hno : (getCombinedMimeTypes builtin (some sideLines)).find?
        (fun p => extOf inst == p.2) = none)
    (ht : strStartsWith inst.mime_type ("text/".data) = false)
    (hi : strStartsWith inst.mime_type ("image/".data) = false)
    (hex : extOf inst ∉ exclude_extensions)
    (hne : extOf inst ≠ []) :
    (correct_mime_type_receiver builtin true sideLines inst).doc.mime_type =
      inst.mime_type ++ '-' :: extensionWithoutDot (extOf inst) ∧
    (correct_mime_type_receiver builtin true sideLines inst).sideLines =
      sideLines ++ [customMime inst ++ ':' :: ' ' :: extOf inst] := by
  unfold correct_mime_type_receiver
  rw [hno, if_pos ⟨ht, hi, hex, hne⟩]
  exact ⟨rfl, rfl⟩

theorem correct_mime_type_synthesizes_witness :
    (correct_mime_type_receiver [("video/mp4".data, ".mp4".data)] true []
        ⟨"design.afdesign".data, "application/octet-stream".data⟩).doc.mime_type =
      ("application/octet-stream".data : Str) ++ '-' ::
        extensionWithoutDot (extOf ⟨"design.afdesign".data, "application/octet-stream".data⟩) ∧
    (correct_mime_type_receiver [("video/mp4".data, ".mp4".data)] true []
        ⟨"design.afdesign".data, "application/octet-stream".data⟩).sideLines =
      [] ++ [customMime ⟨"design.afdesign".data, "application/octet-stream".data⟩ ++
        ':' :: ' ' :: extOf ⟨"design.afdesign".data, "application/octet-stream".data⟩] :=
  correct_mime_type_synthesizes [("video/mp4".data, ".mp4".data)] []
    ⟨"design.afdesign".data, "application/octet-stream".data⟩
    (by decide) (by decide) (by decide) (by decide) (by decide)

/-- C9 counterexample: with the append to the side file failing
(`writeOk = false`), the record's mime type does not retain its detected
value `application/octet-stream` — line 164 of signals.py
(`instance.mime_type = custom_mime`) sits after the `try`/`except` and
runs even when the write raised. -/
theorem write_failure_mime_changed_counterexample :
    (correct_mime_type_receiver [] false []
        ⟨"design.afdesign".data, "application/octet-stream".data⟩).doc.mime_type ≠
      "application/octet-stream".data ∧
    (correct_mime_type_receiver [] false []
        ⟨"design.afdesign".data, "application/octet-stream".data⟩).doc.mime_type =
      "application/octet-stream-afdesign".data := by decide

/-- C9 (amended): when the append to the side file fails, the failure is
caught — the handler completes normally and the side file is unchanged —
but the record's mime type is still set to the synthesized value rather
than retaining the originally detected one. -/
theorem write_failure_caught (builtin : List (Str × Str))
    (sideLines : List Str) (inst : Document)
    (hno : (getCombinedMimeTypes builtin (some sideLines)).find?
        (fun p => extOf inst == p.2) = none)
    (ht : strStartsWith inst.mime_type ("text/".data) = false)
    (hi : strStartsWith inst.mime_type ("image/".data) = false)
    (hex : extOf inst ∉ exclude_extensions)
    (hne : extOf inst ≠ []) :
    correct_mime_type_receiver builtin false sideLines inst =
      ⟨{ inst with mime_type := customMime inst }, sideLines⟩ := by
  unfold correct_mime_type_receiver
  rw [hno, if_pos ⟨ht, hi, hex, hne⟩]
  rfl

theorem write_failure_caught_witness :
    correct_mime_type_receiver [] false []
        ⟨"design.afdesign".data, "application/octet-stream".data⟩ =
      ⟨{ original_filename := "design.afdesign".data,
         mime_type := customMime ⟨"design.afdesign".data, "application/octet-stream".data⟩ },
       []⟩ :=
  write_failure_caught [] [] ⟨"design.afdesign".data, "application/octet-stream".data⟩
    (by decide) (by decide) (by decide) (by decide) (by decide)

/-- C10: when no table entry matches and the record is not eligible for a
synthetic mime type (text or image mime type, excluded office extension,
or empty extension), the handler leaves both the record and the side file
unchanged. -/
theorem receiver_no_change_frame (builtin : List (Str × Str)) (writeOk : Bool)
    (sideLines : List Str) (inst : Document)
    (hno : (getCombinedMimeTypes builtin (some sideLines)).find?
        (fun p => extOf inst == p.2) = none)
    (h : strStartsWith inst.mime_type ("text/".data) = true ∨
         strStartsWith inst.mime_type ("image/".data) = true ∨
         extOf inst ∈ exclude_extensions ∨ extOf inst = []) :
    correct_mime_type_receiver builtin writeOk sideLines inst = ⟨inst, sideLines⟩ := by
  have hcond : ¬(strStartsWith inst.mime_type ("text/".data) = false ∧
      strStartsWith inst.mime_type ("image/".data) = false ∧
      extOf inst ∉ exclude_extensions ∧ extOf inst ≠ []) := by
    rintro ⟨c1, c2, c3, c4⟩
    rcases h with h | h | h | h
    · rw [h] at c1; cases c1
    · rw [h] at c2; cases c2
    · exact c3 h
    · exact c4 h
  unfold correct_mime_type_receiver
  rw [hno, if_neg hcond]

theorem receiver_no_change_frame_witness :
    correct_mime_type_receiver [("video/mp4".data, ".mp4".data)] true []
        ⟨"notes.xyz".data, "text/plain".data⟩ =
      ⟨⟨"notes.xyz".data, "text/plain".data⟩, []⟩ :=
  receiver_no_change_frame [("video/mp4".data, ".mp4".data)] true []
    ⟨"notes.xyz".data, "text/plain".data⟩ (by decide) (Or.inl (by decide))

/-- C6: for every content of the side file, if the built-in table has no
duplicate keys (as a Python dict it cannot), neither does the combined
table — each mime type is mapped to exactly one extension — and looking a
built-in mime type up in the combined table yields its built-in extension,
whatever conflicting entries the side file holds. -/
theorem combined_unique_keys (builtin : List (Str × Str)) (lines : List Str)
    (hnd : (builtin.map Prod.fst).Nodup) :
    ((getCombinedMimeTypes builtin (some lines)).map Prod.fst).Nodup ∧
    ∀ m e, (m, e) ∈ builtin →
      (getCombinedMimeTypes builtin (some lines)).find? (fun p => p.1 == m) =
        some (m, e) := by
  constructor
  · simp only [getCombinedMimeTypes]
    exact foldl_keys_nodup lines builtin hnd
  · intro m e hm
    obtain ⟨gen, hg⟩ := combined_extends builtin lines
    rw [hg, List.find?_append, find?_key_of_mem builtin m e hnd hm]
    rfl

theorem combined_unique_keys_witness :
    ((getCombinedMimeTypes [("video/mp4".data, ".mp4".data)]
        (some ["video/mp4: .m4v".data])).map Prod.fst).Nodup ∧
    (getCombinedMimeTypes [("video/mp4".data, ".mp4".data)]
        (some ["video/mp4: .m4v".data])).find?
        (fun p => p.1 == "video/mp4".data) =
      some ("video/mp4".data, ".mp4".data) :=
  ⟨(combined_unique_keys [("video/mp4".data, ".mp4".data)]
      ["video/mp4: .m4v".data] (by decide)).1,
   (combined_unique_keys [("video/mp4".data, ".mp4".data)]
      ["video/mp4: .m4v".data] (by decide)).2
     ("video/mp4".data) (".mp4".data) (by decide)⟩

/-! ## Round-trip of a generated line through the side-file parser -/

theorem dropWhile_eq_self_of_head (p : Char → Bool) (s : Str)
    (h : ∀ c, s.head? = some c → p c = false) : s.dropWhile p = s := by
  cases s with
  | nil => rfl
  | cons c cs =>
    rw [List.dropWhile_cons, if_neg]
    simp [h c rfl]

theorem pyStrip_eq_self (s : Str)
    (h1 : ∀ c, s.head? = some c → pyIsSpace c = false)
    (h2 : ∀ c, s.getLast? = some c → pyIsSpace c = false) :
    pyStrip s = s := by
  unfold pyStrip
  rw [dropWhile_eq_self_of_head pyIsSpace s h1]
  rw [dropWhile_eq_self_of_head pyIsSpace s.reverse
    (fun c hc => h2 c (by rwa [List.head?_reverse] at hc))]
  exact List.reverse_reverse s

theorem splitFirst_append (a b : Str) (h : ':' ∉ a) :
    splitFirst ':' (a ++ ':' :: b) = (a, b) := by
  induction a with
  | nil => simp [splitFirst]
  | cons c cs ih =>
    have hc : ¬ c = ':' := fun hh => h (by rw [hh]; exact List.mem_cons_self ':' cs)
    rw [List.cons_append]
    simp only [splitFirst, if_neg hc]
    rw [ih (fun hm => h (List.mem_cons_of_mem c hm))]

/-- The line the handler writes for an eligible record parses back, on the
next read of the side file, into exactly the pair `(custom mime type,
extension)` — provided the mime type and extension contain no colon and no
whitespace, the mime type does not begin with `#`, the extension begins
with a dot, and the custom mime type is not already a key of the
table accumulated so far. -/
theorem processLine_generated (acc : List (Str × Str)) (m e : Str)
    (hm_ne : m ≠ []) (hmc : ':' ∉ m)
    (hwm : ∀ c ∈ m, pyIsSpace c = false)
    (hhash : m.head? ≠ some '#')
    (he_ne : e ≠ []) (hwe : ∀ c ∈ e, pyIsSpace c = false)
    (hedot : strStartsWith e ['.'] = true)
    (hkey : (acc.find? (fun p => p.1 == m)).isSome = false) :
    processLine acc (m ++ ':' :: ' ' :: e) = acc ++ [(m, e)] := by
  obtain ⟨a, as, rfl⟩ := List.exists_cons_of_ne_nil hm_ne
  have hhead : (a :: as).head? = some a := rfl
  have ha_mem : a ∈ a :: as := List.mem_cons_self a as
  have hedothead : e.head? = some '.' := head_of_startsWith '.' [] e hedot
  have hstrip : pyStrip ((a :: as) ++ ':' :: ' ' :: e) = (a :: as) ++ ':' :: ' ' :: e := by
    apply pyStrip_eq_self
    · intro c hc
      rw [List.cons_append, List.head?_cons, Option.some_inj] at hc
      rw [← hc]
      exact hwm a ha_mem
    · intro c hc
      rw [List.getLast?_append_cons, show (':' :: ' ' :: e) = [':'] ++ ' ' :: e from rfl,
        List.getLast?_append_cons, show (' ' :: e) = [' '] ++ e from rfl,
        List.getLast?_append_of_ne_nil [' '] he_ne] at hc
      exact hwe c (List.mem_of_getLast?_eq_some hc)
  have hmem_colon : ':' ∈ (a :: as) ++ ':' :: ' ' :: e :=
    List.mem_append_right _ (List.mem_cons_self ':' (' ' :: e))
  have hcond : ¬((a :: as) ++ ':' :: ' ' :: e = [] ∨
      ':' ∉ (a :: as) ++ ':' :: ' ' :: e ∨
      strStartsWith ((a :: as) ++ ':' :: ' ' :: e) ['#'] = true) := by
    rintro (h1 | h1 | h1)
    · rw [List.append_eq_nil] at h1
      cases h1.1
    · exact h1 hmem_colon
    · have : ((a :: as) ++ ':' :: ' ' :: e).head? = some '#' :=
        head_of_startsWith '#' [] _ h1
      rw [List.cons_append, List.head?_cons, Option.some_inj] at this
      exact hhash (by rw [hhead, this])
  have hsplit : splitFirst ':' ((a :: as) ++ ':' :: ' ' :: e) = (a :: as, ' ' :: e) :=
    splitFirst_append (a :: as) (' ' :: e) hmc
  have hstrip_m : pyStrip (a :: as) = a :: as := by
    apply pyStrip_eq_self
    · intro c hc
      rw [List.head?_cons, Option.some_inj] at hc
      rw [← hc]; exact hwm a ha_mem
    · intro c hc
      exact hwm c (List.mem_of_getLast?_eq_some hc)
  have hstrip_e : pyStrip (' ' :: e) = e := by
    have h1 : (' ' :: e).dropWhile pyIsSpace = e.dropWhile pyIsSpace := by
      rw [List.dropWhile_cons, if_pos (show pyIsSpace ' ' = true by decide)]
    have h2 : pyStrip (' ' :: e) = pyStrip e := by
      unfold pyStrip; rw [h1]
    rw [h2]
    apply pyStrip_eq_self
    · intro c hc
      rw [hedothead, Option.some_inj] at hc
      rw [← hc]; decide
    · intro c hc
      exact hwe c (List.mem_of_getLast?_eq_some hc)
  simp only [processLine, hstrip, hsplit, hstrip_m, hstrip_e]
  rw [if_neg hcond]
  rw [if_pos ⟨List.cons_ne_nil a as, he_ne⟩]
  rw [if_pos hedot]
  rw [if_neg (by rw [hkey]; exact Bool.false_ne_true)]

/-- C8: sequential execution.  For an eligible record (no table match,
base mime type neither text nor image, extension non-empty, dotted and not
excluded, and — as for every real mime type and extension — free of
colons, whitespace and a leading `#`, with the synthetic mime type not yet
a key of the combined table), the first save appends the synthetic mapping
to the side file exactly once, and every later save of a record with the
same extension finds that entry in the combined table and appends
nothing. -/
theorem synthetic_mapping_appended_once (builtin : List (Str × Str))
    (sideLines : List Str) (inst : Document)
    (hno : (getCombinedMimeTypes builtin (some sideLines)).find?
        (fun p => extOf inst == p.2) = none)
    (ht : strStartsWith inst.mime_type ("text/".data) = false)
    (hi : strStartsWith inst.mime_type ("image/".data) = false)
    (hex : extOf inst ∉ exclude_extensions)
    (hne : extOf inst ≠ [])
    (hdot : strStartsWith (extOf inst) ['.'] = true)
    (hmc : ':' ∉ inst.mime_type)
    (hec : ':' ∉ extOf inst)
    (hwm : ∀ c ∈ inst.mime_type, pyIsSpace c = false)
    (hwe : ∀ c ∈ extOf inst, pyIsSpace c = false)
    (hhash : inst.mime_type.head? ≠ some '#')
    (hkey : customMime inst ∉
        (getCombinedMimeTypes builtin (some sideLines)).map Prod.fst) :
    (correct_mime_type_receiver builtin true sideLines inst).sideLines =
      sideLines ++ [generatedLine inst] ∧
    ∀ (writeOk2 : Bool) (inst2 : Document), extOf inst2 = extOf inst →
      (correct_mime_type_receiver builtin writeOk2
          (sideLines ++ [generatedLine inst]) inst2).sideLines =
        sideLines ++ [generatedLine inst] := by
  have hsubE : ∀ c, c ∈ extensionWithoutDot (extOf inst) → c ∈ extOf inst := by
    intro c hc
    unfold extensionWithoutDot at hc
    by_cases hd : strStartsWith (extOf inst) ['.'] = true
    · rw [if_pos hd] at hc
      exact List.mem_of_mem_drop hc
    · rw [if_neg hd] at hc
      exact hc
  have hm_ne : customMime inst ≠ [] := by
    unfold customMime
    rw [Ne, List.append_eq_nil]
    rintro ⟨-, h2⟩
    cases h2
  have hmc' : ':' ∉ customMime inst := by
    unfold customMime
    rw [List.mem_append]
    rintro (h1 | h1)
    · exact hmc h1
    · rcases List.mem_cons.mp h1 with h2 | h2
      · cases h2
      · exact hec (hsubE ':' h2)
  have hwm' : ∀ c ∈ customMime inst, pyIsSpace c = false := by
    intro c hc
    unfold customMime at hc
    rw [List.mem_append] at hc
    rcases hc with h1 | h1
    · exact hwm c h1
    · rcases List.mem_cons.mp h1 with h2 | h2
      · rw [h2]; decide
      · exact hwe c (hsubE c h2)
  have hhash' : (customMime inst).head? ≠ some '#' := by
    unfold customMime
    cases hm : inst.mime_type with
    | nil => simp
    | cons a as =>
      rw [List.cons_append, List.head?_cons]
      rw [hm, List.head?_cons] at hhash
      exact hhash
  have hkey' : ((getCombinedMimeTypes builtin (some sideLines)).find?
      (fun p => p.1 == customMime inst)).isSome = false := by
    rw [Bool.eq_false_iff]
    intro hs
    obtain ⟨p, hp, hps⟩ := List.find?_isSome.mp hs
    exact hkey (List.mem_map.mpr ⟨p, hp, by simpa using hps⟩)
  have hcomb2 : getCombinedMimeTypes builtin (some (sideLines ++ [generatedLine inst])) =
      getCombinedMimeTypes builtin (some sideLines) ++
        [(customMime inst, extOf inst)] := by
    simp only [getCombinedMimeTypes, List.foldl_append, List.foldl_cons, List.foldl_nil,
      generatedLine]
    exact processLine_generated _ (customMime inst) (extOf inst)
      hm_ne hmc' hwm' hhash' hne hwe hdot hkey'
  constructor
  · unfold correct_mime_type_receiver
    rw [hno, if_pos ⟨ht, hi, hex, hne⟩]
    rfl
  · intro writeOk2 inst2 hext
    unfold correct_mime_type_receiver
    simp only [hext, hcomb2, List.find?_append, hno, Option.none_or]
    rw [List.find?_cons_of_pos _ (by simp)]

theorem synthetic_mapping_appended_once_witness :
    (correct_mime_type_receiver [("video/mp4".data, ".mp4".data)] true []
        ⟨"design.afdesign".data, "application/octet-stream".data⟩).sideLines =
      [] ++ [generatedLine ⟨"design.afdesign".data, "application/octet-stream".data⟩] ∧
    (correct_mime_type_receiver [("video/mp4".data, ".mp4".data)] false
        ([] ++ [generatedLine ⟨"design.afdesign".data, "application/octet-stream".data⟩])
        ⟨"other.AFDESIGN".data, "application/pdf".data⟩).sideLines =
      [] ++ [generatedLine ⟨"design.afdesign".data, "application/octet-stream".data⟩] :=
  ⟨(synthetic_mapping_appended_once [("video/mp4".data, ".mp4".data)] []
      ⟨"design.afdesign".data, "application/octet-stream".data⟩
      (by decide) (by decide) (by decide) (by decide) (by decide) (by decide)
      (by decide) (by decide) (by decide) (by decide) (by decide) (by decide)).1,
   (synthetic_mapping_appended_once [("video/mp4".data, ".mp4".data)] []
      ⟨"design.afdesign".data, "application/octet-stream".data⟩
      (by decide) (by decide) (by decide) (by decide) (by decide) (by decide)
      (by decide) (by decide) (by decide) (by decide) (by decide) (by decide)).2
     false ⟨"other.AFDESIGN".data, "application/pdf".data⟩ (by decide)⟩

end PaperlessMedia
